import Mathlib

/-!
Verification of the two core components of `sputier/vscode-cosmosdb`:

* `MongoCollectionTreeItem` (src/mongo/tree/MongoCollectionTreeItem.ts):
  lazy pagination with growing batch size, bulk update, command dispatch.
* `CosmosEditorManager` (src/CosmosEditorManager.ts):
  buffer-to-entity binding, save-triggered upload, suppress flag, persisted
  binding recovery.

The TypeScript is shallowly embedded: each method becomes a pure Lean
function over an explicit state record.  External collaborators (the mongodb
driver cursor, JSON (de)serialization, the vscode tree resolver, user
prompts, the buffer save operation) are parameters of the embedding, with
their observable outcome supplied as explicit inputs.
-/

namespace MongoCollection

/-- State of a `MongoCollectionTreeItem`, restricted to the fields the
pagination algorithm reads and writes.  The backing result set of
`collection.find(this._query)` is modelled as the fixed list `docs` in the
cursor's native order; `Option Nat` models the nullable `_cursor` as the
index of the next unread document (`none` = `undefined`).
`DefaultBatchSize` lives in `src/constants.ts`, which is not part of the two
source files; the claims quantify over it, so it is the parameter `B` of the
operations below. -/
structure CollectionState (α : Type) where
  docs : List α
  _cursor : Option Nat
  _hasMoreChildren : Bool
  _batchSize : Nat
deriving Repr, DecidableEq

/-- Fresh tree item: `_cursor` starts `undefined`, `_hasMoreChildren = true`,
`_batchSize = DefaultBatchSize` (field initializers, lines 23-25). -/
def CollectionState.fresh {α : Type} (docs : List α) (B : Nat) : CollectionState α :=
  ⟨docs, none, true, B⟩

/-- The `while (count < this._batchSize)` loop of `loadMoreChildren`
(lines 76-84): each iteration first asks `cursor.hasNext()` (modelled as
`pos < docs.length`) and stores the answer in `_hasMoreChildren`; if true it
consumes `cursor.next()`, otherwise it breaks.  `fuel` is the number of loop
iterations still allowed (`_batchSize - count`); `hm` is the incoming value
of `_hasMoreChildren` (kept unchanged if the loop body never runs).
Returns (documents fetched, new cursor position, new `_hasMoreChildren`). -/
def fetchLoop {α : Type} (docs : List α) (pos : Nat) (hm : Bool) :
    Nat → List α × Nat × Bool
  | 0 => ([], pos, hm)
  | fuel + 1 =>
    if h : pos < docs.length then
      (docs.get ⟨pos, h⟩ :: (fetchLoop docs (pos + 1) true fuel).1,
       (fetchLoop docs (pos + 1) true fuel).2)
    else
      ([], pos, false)

/-- `loadMoreChildren(_node, clearCache)` (lines 68-88).  If `clearCache` or
`this._cursor === undefined`, recreate the cursor on the stored query (a new
cursor starts at position 0) and reset `_batchSize` to the default `B`.
Then run the fetch loop and finally double `_batchSize` (line 85).  Returns
the fetched batch and the new state. -/
def loadMoreChildren {α : Type} (B : Nat) (s : CollectionState α) (clearCache : Bool) :
    List α × CollectionState α :=
  let init : Nat × Nat :=
    if clearCache || s._cursor.isNone then (0, B)
    else (s._cursor.getD 0, s._batchSize)
  let fetched := fetchLoop s.docs init.1 s._hasMoreChildren init.2
  (fetched.1,
   { docs := s.docs
     _cursor := some fetched.2.1
     _hasMoreChildren := fetched.2.2
     _batchSize := init.2 * 2 })

/-- `hasMoreChildren()` (lines 64-66). -/
def hasMoreChildren {α : Type} (s : CollectionState α) : Bool :=
  s._hasMoreChildren

/-- `k` successive calls `loadMoreChildren(_node, false)`, collecting the
batches in order. -/
def runFetches {α : Type} (B : Nat) : Nat → CollectionState α → List (List α) × CollectionState α
  | 0, s => ([], s)
  | k + 1, s =>
    ((runFetches B k s).1 ++ [(loadMoreChildren B (runFetches B k s).2 false).1],
     (loadMoreChildren B (runFetches B k s).2 false).2)


/-- The predicted batches of `k` successive `loadMoreChildren(_node, false)`
calls starting from a fresh item: batch `i` consists of up to `B * 2 ^ i`
documents starting right after the `B * (2 ^ i - 1)` documents consumed by
the earlier batches. -/
def batches {α : Type} (docs : List α) (B k : Nat) : List (List α) :=
  (List.range k).map (fun i => (docs.drop (B * (2 ^ i - 1))).take (B * 2 ^ i))

/-- An `IMongoDocument`: its `_id` plus the remaining fields. -/
structure MongoDocument where
  _id : String
  fields : List (String × String)
deriving Repr, DecidableEq

/-- One element of the `operations` array built by
`MongoCollectionTreeItem.update` (lines 33-41): an `updateOne` with a filter
on `_id`, the document without its `_id` (`_.omit(document, '_id')`) as the
replacement, and `upsert: false`. -/
structure UpdateOneOp where
  filterId : String
  replacement : List (String × String)
  upsert : Bool
deriving Repr, DecidableEq

/-- Effect of a single `updateOne` operation on the remote store (the mongodb
driver, an external collaborator): replace the first document whose `_id`
matches the filter; with `upsert: false` a miss inserts nothing. -/
def applyUpdateOne : List MongoDocument → UpdateOneOp → List MongoDocument
  | [], _ => []
  | d :: ds, op =>
    if d._id = op.filterId then MongoDocument.mk d._id op.replacement :: ds
    else d :: applyUpdateOne ds op

/-- `MongoCollectionTreeItem.update(documents)` (lines 32-47): build the
`operations` array, run `collection.bulkWrite(operations)` against the remote
store, log the write counts, and return `documents`.  Result: (the value the
method returns, the remote store after the bulk write). -/
def collectionUpdate (documents : List MongoDocument) (store : List MongoDocument) :
    List MongoDocument × List MongoDocument :=
  let operations := documents.map (fun d => UpdateOneOp.mk d._id d.fields false)
  (documents, operations.foldl applyUpdateOne store)

/-- The nine command names recognized by `executeCommand` (lines 107-140). -/
inductive MongoCommand
  | drop
  | insertMany
  | insert
  | insertOne
  | deleteOne
  | deleteMany
  | remove
  | count
  | findOne
deriving Repr, DecidableEq

/-- The argument expression `args ? parseJSContent(args) : undefined` used by
every recognized command except `drop`: `undefined` and the empty string are
falsy, so no parse is attempted for them; otherwise `parseJSContent` either
returns a value or throws its `error.message` string (lines 227-238).
`parseJS` models the outcome of `vm.runInNewContext` on the given text. -/
def dispatchArg {gam : Type} (parseJS : String → Except String gam) (args : Option String) :
    Except String (Option gam) :=
  match args with
  | none => Except.ok none
  | some a => if a = "" then Except.ok none else (parseJS a).map some

/-- Dispatch of one argument-taking command: a synchronous throw from
`parseJSContent` is caught by the surrounding `try` and turned into
`Promise.resolve(error)` — a fulfilled result carrying the error description —
while the `Thenable` returned by the driver call (`run`), rejected or not, is
returned as-is. -/
def dispatchWithArg {gam tau : Type} (parseJS : String → Except String gam)
    (run : MongoCommand → Option gam → Except tau String)
    (c : MongoCommand) (args : Option String) : Option (Except tau String) :=
  match dispatchArg parseJS args with
  | Except.error m => some (Except.ok m)
  | Except.ok v => some (run c v)

/-- `executeCommand(name, args)` (lines 107-140).  `run c v` is the settled
outcome of the `Thenable` produced by the private driver method for command
`c` on parsed argument `v` (wrapped in `reportProgress`, which is transparent):
`Except.ok` a fulfilled display string, `Except.error` a rejection.  The
result `none` models the `return null` for an unrecognized name. -/
def executeCommand {gam tau : Type} (parseJS : String → Except String gam)
    (run : MongoCommand → Option gam → Except tau String)
    (name : String) (args : Option String) : Option (Except tau String) :=
  if name = "drop" then some (run MongoCommand.drop none)
  else if name = "insertMany" then dispatchWithArg parseJS run MongoCommand.insertMany args
  else if name = "insert" then dispatchWithArg parseJS run MongoCommand.insert args
  else if name = "insertOne" then dispatchWithArg parseJS run MongoCommand.insertOne args
  else if name = "deleteOne" then dispatchWithArg parseJS run MongoCommand.deleteOne args
  else if name = "deleteMany" then dispatchWithArg parseJS run MongoCommand.deleteMany args
  else if name = "remove" then dispatchWithArg parseJS run MongoCommand.remove args
  else if name = "count" then dispatchWithArg parseJS run MongoCommand.count args
  else if name = "findOne" then dispatchWithArg parseJS run MongoCommand.findOne args
  else none

end MongoCollection

namespace CosmosEditorManager

/-- Failure taxonomy of the editor manager: `cancelled` is
`UserCancelledError`; `malformedInput` a `JSON.parse` throw; `entityNotFound`
the `throw new Error(...)` in `loadPersistedEditor` (line 106); `writeFailed`
and `saveFailed` failures of the underlying vscode buffer write and save;
`typeError` the JavaScript `TypeError` raised when dereferencing
`undefined`. -/
inductive Err
  | cancelled
  | malformedInput
  | entityNotFound
  | writeFailed
  | saveFailed
  | typeError
deriving Repr, DecidableEq

/-- Observable calls to external collaborators that the claims quantify over:
`entityUpdate` a call to `editor.update`, `configUpdate` the configuration
write performed for the "Upload, always" prompt choice. -/
inductive Ev
  | entityUpdate
  | configUpdate
deriving Repr, DecidableEq

/-- An `ICosmosEditor` handle (lines 21-26): `label`, `id`, `getData()`
(returning the remote entity data `data`) and `update`, whose remote effect
and canonical return value are the abstract function `updateFn` of the
entity variant behind the handle. -/
structure Editor (alp : Type) where
  label : String
  id : String
  data : alp
  updateFn : alp → alp

/-- Overwrite-or-append assignment `obj[k] = v` on a string-keyed object
modelled as an association list with unique keys. -/
def insertEntry {bet : Type} (m : List (String × bet)) (k : String) (v : bet) :
    List (String × bet) :=
  (k, v) :: m.filter (fun kv => !(kv.1 == k))

/-- Lookup `obj[k]` on a string-keyed object.  The source compares paths with
`path.relative(a, b) === ''`, i.e. path equality, modelled as string
equality. -/
def lookup {bet : Type} (m : List (String × bet)) (k : String) : Option bet :=
  (m.find? (fun kv => kv.1 == k)).map (fun kv => kv.2)

/-- State of a `CosmosEditorManager` together with the vscode state it
touches: `fileMap` and `ignoreSave` are the two instance fields (lines
29-30); `persisted` is the value stored in `globalState` under
`_persistedEditorsKey` (`none` = never written; the stored object maps a
buffer path to an entity id); `buffers` maps a file path to the text content
of the corresponding open document.  A `fileMap` entry whose value is `none`
models a JavaScript key holding `undefined` (possible via
`loadPersistedEditor` on an unrecognized tree-item kind). -/
structure MgrState (alp : Type) where
  fileMap : List (String × Option (Editor alp))
  ignoreSave : Bool
  persisted : Option (List (String × String))
  buffers : List (String × String)

/-- Outcomes of the two fallible vscode buffer primitives touched by
`updateEditor`: `util.writeToEditor` and `textEditor.document.save()`. -/
structure SaveEnv where
  writeOk : Bool
  saveOk : Bool
deriving Repr, DecidableEq

/-- `updateEditor(data, textEditor)` (lines 78-86): write
`JSON.stringify(data, null, 2)` (modelled by `stringify`) into the buffer at
`bufPath`, set `ignoreSave := true`, save the document, and reset
`ignoreSave := false` in the `finally` — also when the save throws. -/
def updateEditor {alp : Type} (stringify : alp → String) (d : alp) (bufPath : String)
    (env : SaveEnv) (s : MgrState alp) : Except Err Unit × MgrState alp :=
  if env.writeOk then
    let s1 : MgrState alp := { s with buffers := insertEntry s.buffers bufPath (stringify d) }
    let s2 : MgrState alp := { s1 with ignoreSave := true }
    if env.saveOk then (Except.ok (), { s2 with ignoreSave := false })
    else (Except.error Err.saveFailed, { s2 with ignoreSave := false })
  else (Except.error Err.writeFailed, s)

/-- `updateToCloud(editor, doc)` (lines 69-76):
`editor.update(JSON.parse(doc.getText()))`, a log line, then
`updateEditor(updatedDoc, vscode.window.activeTextEditor)`.  `oe` is the
possibly-`undefined` editor handle — JavaScript evaluates the callee
`editor.update` before its argument, so an `undefined` handle raises
`TypeError` before `JSON.parse` runs; `docText` is `doc.getText()`;
`activePath` is the document path of `vscode.window.activeTextEditor`;
`parse` models `JSON.parse` (`none` = throw).  The event list records the
calls made to `editor.update`. -/
def updateToCloud {alp : Type} (parse : String → Option alp) (stringify : alp → String)
    (oe : Option (Editor alp)) (docText : String) (activePath : String)
    (env : SaveEnv) (s : MgrState alp) : Except Err Unit × MgrState alp × List Ev :=
  match oe with
  | none => (Except.error Err.typeError, s, [])
  | some e =>
    match parse docText with
    | none => (Except.error Err.malformedInput, s, [])
    | some d =>
      let r := updateEditor stringify (e.updateFn d) activePath env s
      (r.1, r.2, [Ev.entityUpdate])

/-- The runtime class of a recovered tree item, as tested by the three
`instanceof` checks in `loadPersistedEditor` (lines 97-103). -/
inductive NodeKind
  | mongoCollection
  | docDBDocument
  | mongoDocument
  | other
deriving Repr, DecidableEq

/-- A node returned by `tree.findNode`: the runtime class of its tree item
and the editor wrapper the matching branch would construct around it. -/
structure TreeNode (alp : Type) where
  kind : NodeKind
  nodeEditor : Editor alp

/-- The `instanceof` dispatch of `loadPersistedEditor` (lines 96-104): a
recognized kind wraps the node in the corresponding node editor; an
unrecognized kind leaves the local variable `editor` `undefined`, which is
then stored into `fileMap` as-is. -/
def editorForNode {alp : Type} (n : TreeNode alp) : Option (Editor alp) :=
  match n.kind with
  | NodeKind.mongoCollection => some n.nodeEditor
  | NodeKind.docDBDocument => some n.nodeEditor
  | NodeKind.mongoDocument => some n.nodeEditor
  | NodeKind.other => none

/-- `loadPersistedEditor(documentUri, tree)` (lines 88-113).  `resolver` is
`tree.findNode`; `uriPath` is `documentUri.fsPath`.  Returns the recovered
file path (`none` models returning `undefined`) or throws when the resolver
cannot locate the persisted entity id. -/
def loadPersistedEditor {alp : Type} (resolver : String → Option (TreeNode alp))
    (uriPath : String) (s : MgrState alp) : Except Err (Option String) × MgrState alp :=
  match s.persisted with
  | none => (Except.ok none, s)
  | some tbl =>
    match tbl.find? (fun kv => kv.1 == uriPath) with
    | none => (Except.ok none, s)
    | some kv =>
      match resolver kv.2 with
      | none => (Except.error Err.entityNotFound, s)
      | some node =>
        (Except.ok (some kv.1),
         { s with fileMap := insertEntry s.fileMap kv.1 (editorForNode node) })

/-- The three user choices of the save warning dialog (line 127). -/
inductive SaveResponse
  | upload
  | uploadDontWarn
  | cancel
deriving Repr, DecidableEq

/-- `onDidSaveTextDocument(context, globalState, doc, tree)` (lines 115-138):
resolve the saved path against `fileMap`, falling back to
`loadPersistedEditor`; if `ignoreSave` is clear and the path resolved, read
the bound editor, show the save warning unless the `cosmosDB.showSavePrompt`
configuration value (`showSavePrompt`, `none` = unset) is literally `false`,
and upload via `updateToCloud`.  `resp` is the user's dialog choice; the
prompt message itself dereferences `editor.label`, so an `undefined` binding
raises `TypeError` there. -/
def onDidSaveTextDocument {alp : Type} (parse : String → Option alp)
    (stringify : alp → String) (resolver : String → Option (TreeNode alp))
    (uriPath docText activePath : String) (showSavePrompt : Option Bool)
    (resp : SaveResponse) (env : SaveEnv) (s : MgrState alp) :
    Except Err Unit × MgrState alp × List Ev :=
  let found := (s.fileMap.find? (fun kv => kv.1 == uriPath)).map (fun kv => kv.1)
  match (if found.isSome then (Except.ok found, s) else loadPersistedEditor resolver uriPath s) with
  | (Except.error e, s1) => (Except.error e, s1, [])
  | (Except.ok fp, s1) =>
    match fp, s1.ignoreSave with
    | some p, false =>
      let oe := (s1.fileMap.find? (fun kv => kv.1 == p)).bind (fun kv => kv.2)
      if showSavePrompt ≠ some false then
        match oe with
        | none => (Except.error Err.typeError, s1, [])
        | some e =>
          match resp with
          | SaveResponse.cancel => (Except.error Err.cancelled, s1, [])
          | SaveResponse.uploadDontWarn =>
            let r := updateToCloud parse stringify (some e) docText activePath env s1
            (r.1, r.2.1, Ev.configUpdate :: r.2.2)
          | SaveResponse.upload =>
            updateToCloud parse stringify (some e) docText activePath env s1
      else updateToCloud parse stringify oe docText activePath env s1
    | _, _ => (Except.ok (), s1, [])

/-- `updateMatchingNode(documentUri, tree)` (lines 60-67): look the saved
path up in `fileMap`, fall back to `loadPersistedEditor`, open the document,
and call `updateToCloud(this.fileMap[filePath], document)` — with no guard on
an unresolved `filePath` (`this.fileMap[undefined]` is `undefined`). -/
def updateMatchingNode {alp : Type} (parse : String → Option alp)
    (stringify : alp → String) (resolver : String → Option (TreeNode alp))
    (uriPath docText activePath : String) (env : SaveEnv) (s : MgrState alp) :
    Except Err Unit × MgrState alp × List Ev :=
  let found := (s.fileMap.find? (fun kv => kv.1 == uriPath)).map (fun kv => kv.1)
  match (if found.isSome then (Except.ok found, s) else loadPersistedEditor resolver uriPath s) with
  | (Except.error e, s1) => (Except.error e, s1, [])
  | (Except.ok fp, s1) =>
    let oe := fp.bind (fun p => (s1.fileMap.find? (fun kv => kv.1 == p)).bind (fun kv => kv.2))
    updateToCloud parse stringify oe docText activePath env s1

/-- `path.join(os.tmpdir(), 'vscode-cosmosdb-editor', fileName)` (line 41). -/
def tmpPath (fileName : String) : String :=
  "/tmp/vscode-cosmosdb-editor/" ++ fileName

/-- `showDocument(editor, fileName)` (lines 40-58): ensure the temp file
exists, warn if the open document is dirty (`overwriteYes` is the user's
answer; declining throws `UserCancelledError`), record the binding in
`fileMap`, persist every binding's `(path, id)` pair into `globalState`
(`(this.fileMap[key]).id` raises `TypeError` on an `undefined` value), show
the document, fetch `editor.getData()`, and populate the buffer via
`updateEditor`. -/
def showDocument {alp : Type} (stringify : alp → String) (e : Editor alp)
    (fileName : String) (dirty : Bool) (overwriteYes : Bool) (env : SaveEnv)
    (s : MgrState alp) : Except Err Unit × MgrState alp :=
  let p := tmpPath fileName
  let s0 : MgrState alp :=
    if (s.buffers.find? (fun kv => kv.1 == p)).isSome then s
    else { s with buffers := insertEntry s.buffers p "" }
  if dirty && !overwriteYes then (Except.error Err.cancelled, s0)
  else
    let s1 : MgrState alp := { s0 with fileMap := insertEntry s0.fileMap p (some e) }
    if s1.fileMap.any (fun kv => kv.2.isNone) then (Except.error Err.typeError, s1)
    else
      let tbl := s1.fileMap.foldl
        (fun acc kv => insertEntry acc kv.1 (((kv.2.map (fun ed => ed.id))).getD "")) 
        (s1.persisted.getD [])
      updateEditor stringify e.data p env { s1 with persisted := some tbl }

end CosmosEditorManager

namespace MongoCollection

/-- Closed form of the fetch loop: it takes the next `fuel` documents, moves
the cursor to `min (pos + fuel) docs.length`, and reports more children iff
the loop never saw the cursor exhausted (when the body runs at all, that is
exactly `pos + fuel ≤ docs.length`). -/
theorem fetchLoop_eq {α : Type} (docs : List α) :
    ∀ (fuel pos : Nat) (hm : Bool), pos ≤ docs.length →
      fetchLoop docs pos hm fuel =
        ((docs.drop pos).take fuel, min (pos + fuel) docs.length,
         if fuel = 0 then hm else decide (pos + fuel ≤ docs.length)) := by
  intro fuel
  induction fuel with
  | zero =>
    intro pos hm hpos
    simp [fetchLoop]
    omega
  | succ n ih =>
    intro pos hm hpos
    by_cases h : pos < docs.length
    · have hdrop : docs.drop pos = docs.get ⟨pos, h⟩ :: docs.drop (pos + 1) :=
        List.drop_eq_get_cons h
      rw [fetchLoop, dif_pos h, ih (pos + 1) true h]
      dsimp only
      simp only [Prod.mk.injEq]
      refine ⟨?_, ?_, ?_⟩
      · rw [hdrop, List.take_succ_cons]
      · omega
      · by_cases hn : n = 0
        · subst hn
          have hle : pos + (0 + 1) ≤ docs.length := by omega
          simp [hle]
        · simp only [if_neg hn, if_neg (by omega : ¬ n + 1 = 0)]
          have harith : pos + 1 + n = pos + (n + 1) := by omega
          rw [harith]
    · have hdrop : docs.drop pos = [] := List.drop_eq_nil_of_le (by omega)
      rw [fetchLoop, dif_neg h]
      simp only [Prod.mk.injEq]
      refine ⟨?_, ?_, ?_⟩
      · rw [hdrop, List.take_nil]
      · omega
      · simp only [if_neg (by omega : ¬ n + 1 = 0)]
        symm
        simp only [decide_eq_false_iff_not]
        omega

/-- Dropping `min m docs.length` elements is the same as dropping `m`. -/
theorem drop_min_length {α : Type} (docs : List α) (m : Nat) :
    docs.drop (min m docs.length) = docs.drop m := by
  rcases Nat.le_total m docs.length with h | h
  · rw [Nat.min_eq_left h]
  · rw [Nat.min_eq_right h, List.drop_length, List.drop_eq_nil_of_le h]

/-- One `loadMoreChildren(_node, false)` call on a live cursor at position
`p ≤ docs.length`: it returns the next `bs` documents, advances the cursor,
doubles `_batchSize`, and leaves `_hasMoreChildren` untouched when the loop
body never ran (`bs = 0`), else sets it to whether a document remained after
each consumed one. -/
theorem loadMore_continue {α : Type} (B : Nat) (docs : List α) (p : Nat) (hm : Bool)
    (bs : Nat) (hp : p ≤ docs.length) :
    loadMoreChildren B ⟨docs, some p, hm, bs⟩ false =
      ((docs.drop p).take bs,
       ⟨docs, some (min (p + bs) docs.length),
        if bs = 0 then hm else decide (p + bs ≤ docs.length), bs * 2⟩) := by
  simp [loadMoreChildren, fetchLoop_eq docs bs p hm hp]

/-- One `loadMoreChildren` call that recreates the cursor — requested via
`clearCache`, or forced because no cursor exists yet: the batch is the first
`B` documents and `_batchSize` restarts from the default `B`. -/
theorem loadMore_reset {α : Type} (B : Nat) (s : CollectionState α) (c : Bool)
    (h : c = true ∨ s._cursor = none) :
    loadMoreChildren B s c =
      (s.docs.take B,
       ⟨s.docs, some (min B s.docs.length),
        if B = 0 then s._hasMoreChildren else decide (B ≤ s.docs.length), B * 2⟩) := by
  have hcond : (c || s._cursor.isNone) = true := by
    rcases h with h | h
    · simp [h]
    · simp [h]
  simp [loadMoreChildren, hcond, fetchLoop_eq s.docs B 0 s._hasMoreChildren (Nat.zero_le _)]

/-- `B * (2 ^ (k + 1) - 1)` splits off the `(k + 1)`-st batch size. -/
theorem consumed_succ (B k : Nat) :
    B * (2 ^ (k + 1) - 1) = B * (2 ^ k - 1) + B * 2 ^ k := by
  have h1 : 1 ≤ 2 ^ k := Nat.one_le_two_pow
  have h2 : 2 ^ (k + 1) - 1 = (2 ^ k - 1) + 2 ^ k := by
    rw [pow_succ]
    omega
  rw [h2, Nat.mul_add]

/-- Unfolding one step of `batches`. -/
theorem batches_succ {α : Type} (docs : List α) (B k : Nat) :
    batches docs B (k + 1) =
      batches docs B k ++ [(docs.drop (B * (2 ^ k - 1))).take (B * 2 ^ k)] := by
  simp [batches, List.range_succ]

/-- State and batches after `k + 1` calls `loadMoreChildren(_node, false)`
on a fresh item: the batches are as predicted by `batches`; the cursor sits
after the `min (B * (2 ^ (k + 1) - 1)) docs.length` consumed documents,
`_batchSize` is `B * 2 ^ (k + 1)`, and `_hasMoreChildren` is true exactly
while `B * (2 ^ (k + 1) - 1) ≤ docs.length`, i.e. until some fetch saw the
cursor exhausted mid-batch. -/
theorem runFetches_closed {α : Type} (docs : List α) (B : Nat) :
    ∀ k : Nat, runFetches B (k + 1) (CollectionState.fresh docs B) =
      (batches docs B (k + 1),
       ⟨docs, some (min (B * (2 ^ (k + 1) - 1)) docs.length),
        decide (B * (2 ^ (k + 1) - 1) ≤ docs.length), B * 2 ^ (k + 1)⟩) := by
  intro k
  induction k with
  | zero =>
    rw [runFetches, runFetches,
      loadMore_reset B (CollectionState.fresh docs B) false (Or.inr rfl)]
    dsimp only [CollectionState.fresh]
    rw [batches_succ]
    simp only [batches, List.range_zero, List.map_nil, List.nil_append,
      Prod.mk.injEq, CollectionState.mk.injEq]
    norm_num
    by_cases hB : B = 0
    · subst hB; simp
    · simp [hB]
  | succ n ih =>
    rw [runFetches, ih]
    dsimp only
    rw [loadMore_continue B docs (min (B * (2 ^ (n + 1) - 1)) docs.length)
          (decide (B * (2 ^ (n + 1) - 1) ≤ docs.length)) (B * 2 ^ (n + 1))
          (Nat.min_le_right _ _)]
    dsimp only
    have hcons := consumed_succ B (n + 1)
    simp only [Prod.mk.injEq, CollectionState.mk.injEq]
    refine ⟨?_, trivial, ?_, ?_, by ring⟩
    · rw [drop_min_length]
      conv_rhs => rw [batches_succ]
    · congr 1
      omega
    · by_cases hbs : B * 2 ^ (n + 1) = 0
      · have hB : B = 0 := by
          rcases Nat.mul_eq_zero.mp hbs with h | h
          · exact h
          · exact absurd h (by positivity)
        subst hB
        simp
      · rw [if_neg hbs]
        simp only [decide_eq_decide]
        omega

/-- The lengths of the predicted batches: batch `i` holds
`min (B * 2 ^ i, remaining)` documents, where `remaining` is what the earlier
batches left over. -/
theorem batches_map_length {α : Type} (docs : List α) (B k : Nat) :
    (batches docs B k).map List.length =
      (List.range k).map (fun i => min (B * 2 ^ i) (docs.length - B * (2 ^ i - 1))) := by
  simp only [batches, List.map_map]
  apply List.map_congr_left
  intro i _
  simp [List.length_take, List.length_drop]

/-- Concatenating the predicted batches gives the documents in cursor order:
the first `B * (2 ^ k - 1)` of them (all of them once that bound reaches the
collection size). -/
theorem batches_join {α : Type} (docs : List α) (B : Nat) :
    ∀ k, (batches docs B k).flatten = docs.take (B * (2 ^ k - 1)) := by
  intro k
  induction k with
  | zero => simp [batches]
  | succ n ih =>
    rw [batches_succ, List.flatten_append, ih]
    simp only [List.flatten_cons, List.flatten_nil, List.append_nil]
    rw [consumed_succ, List.take_add]

/-- The batches actually fetched are the predicted ones. -/
theorem runFetches_batches {α : Type} (docs : List α) (B : Nat) :
    ∀ k, (runFetches B k (CollectionState.fresh docs B)).1 = batches docs B k := by
  intro k
  cases k with
  | zero => simp [runFetches, batches]
  | succ n => rw [runFetches_closed docs B n]

/-- `hasMoreChildren()` after `k` fetches. -/
theorem runFetches_hasMore {α : Type} (docs : List α) (B : Nat) :
    ∀ k, hasMoreChildren (runFetches B k (CollectionState.fresh docs B)).2 =
      decide (B * (2 ^ k - 1) ≤ docs.length) := by
  intro k
  cases k with
  | zero => simp [runFetches, CollectionState.fresh, hasMoreChildren]
  | succ n =>
    rw [runFetches_closed docs B n]
    rfl

/-- C1, counterexample to the claim as stated: with `N = 2` documents and
default batch size `B = 2`, the first `fetchMore(false)` returns the batch
`[0, 1]` — the batch containing the `N`-th document — yet `hasMore()` is
still true afterwards; only the next (empty) fetch turns it false.  The
fetch loop checks `hasNext()` before each consume and exits on `count`
reaching the batch size without a final check, so exhaustion on an exact
batch boundary goes unnoticed until the following call. -/
theorem pagination_exhaustion_counterexample :
    (loadMoreChildren 2 (CollectionState.fresh [0, 1] 2) false).1 = [0, 1] ∧
    hasMoreChildren (loadMoreChildren 2 (CollectionState.fresh [0, 1] 2) false).2 = true ∧
    (loadMoreChildren 2
        (loadMoreChildren 2 (CollectionState.fresh [0, 1] 2) false).2 false).1 = [] ∧
    hasMoreChildren (loadMoreChildren 2
        (loadMoreChildren 2 (CollectionState.fresh [0, 1] 2) false).2 false).2 = false := by
  decide

/-- C1 (amended): for a backing collection `docs` of `N` documents and
default batch size `B`, `k` repeated `fetchMore(false)` calls return batches
of sizes `min (B * 2 ^ i) (N - consumed)` for `i < k`, whose concatenation
is the first `B * (2 ^ k - 1)` documents in the cursor's native order (all
`N` documents once that bound reaches `N`); `hasMore()` after the `k`-th
batch is true exactly while `B * (2 ^ k - 1) ≤ N` — it turns false after
the batch during which the cursor reported exhaustion, which is the batch
containing the `N`-th document when that batch is shorter than its requested
size, and otherwise only after a later (empty) fetch. -/
theorem pagination_growth_and_exhaustion {α : Type} (docs : List α) (B k : Nat) :
    (runFetches B k (CollectionState.fresh docs B)).1.map List.length =
      (List.range k).map (fun i => min (B * 2 ^ i) (docs.length - B * (2 ^ i - 1))) ∧
    (runFetches B k (CollectionState.fresh docs B)).1.flatten =
      docs.take (B * (2 ^ k - 1)) ∧
    hasMoreChildren (runFetches B k (CollectionState.fresh docs B)).2 =
      decide (B * (2 ^ k - 1) ≤ docs.length) := by
  refine ⟨?_, ?_, runFetches_hasMore docs B k⟩
  · rw [runFetches_batches docs B k, batches_map_length]
  · rw [runFetches_batches docs B k, batches_join]

/-- C6: `fetchMore(true)` — or any `fetchMore` before a cursor exists —
recreates the cursor on the stored query and resets the batch size to the
default `B`: whatever the previous paging state, the returned batch is the
first `B` documents, and `_batchSize` continues from `B` (doubled to `B * 2`
for the following call). -/
theorem fetchMore_reset {α : Type} (B : Nat) (s : CollectionState α) (c : Bool)
    (h : c = true ∨ s._cursor = none) :
    loadMoreChildren B s c =
      (s.docs.take B,
       ⟨s.docs, some (min B s.docs.length),
        if B = 0 then s._hasMoreChildren else decide (B ≤ s.docs.length), B * 2⟩) :=
  loadMore_reset B s c h

/-- C6, witness: a paging state halfway through a 3-document collection with
a grown batch size, reloaded with `clearCache = true`, restarts at the first
document with batch size 2. -/
theorem fetchMore_reset_witness :
    loadMoreChildren 2 (⟨[10, 20, 30], some 2, true, 8⟩ : CollectionState Nat) true =
      ([10, 20, 30].take 2,
       ⟨[10, 20, 30], some (min 2 ([10, 20, 30] : List Nat).length),
        if 2 = 0 then true else decide (2 ≤ ([10, 20, 30] : List Nat).length), 2 * 2⟩) :=
  fetchMore_reset 2 (⟨[10, 20, 30], some 2, true, 8⟩ : CollectionState Nat) true (Or.inl rfl)

/-- C9: `MongoCollectionTreeItem.update` returns exactly its input array of
documents (the `return documents` on line 46), not a value read back from
the remote store after the bulk write. -/
theorem collectionUpdate_returns_input (documents store : List MongoDocument) :
    (collectionUpdate documents store).1 = documents :=
  rfl

/-- C7, counterexample to the claim as stated: for the recognized command
`drop`, a rejection of the dispatched driver call is returned as a rejection
of `executeCommand`'s result — the `try`/`catch` around the dispatch only
catches synchronous throws, not rejections of the returned `Thenable`. -/
theorem executeCommand_rejection_counterexample :
    executeCommand (fun _ => Except.ok ()) (fun _ _ => Except.error ())
      "drop" none = some (Except.error ()) :=
  rfl

/-- C7 (amended): the failures that `executeCommand` never surfaces as
rejections are the synchronous ones — `parseJSContent` throwing on the
argument string of any recognized argument-taking command is caught and
returned as a fulfilled result carrying the thrown error description;
rejections of the dispatched driver call itself propagate as rejections. -/
theorem executeCommand_parse_failure_fulfilled {gam tau : Type}
    (parseJS : String → Except String gam)
    (run : MongoCommand → Option gam → Except tau String)
    (name : String) (a m : String)
    (hname : name ∈ ["insertMany", "insert", "insertOne", "deleteOne",
                     "deleteMany", "remove", "count", "findOne"])
    (ha : ¬ a = "") (hp : parseJS a = Except.error m) :
    executeCommand parseJS run name (some a) = some (Except.ok m) := by
  fin_cases hname <;>
    simp [executeCommand, dispatchWithArg, dispatchArg, Except.map, ha, hp]

/-- C7 (amended), witness: `insert` with an unparseable argument string is
fulfilled with the parse error message. -/
theorem executeCommand_parse_failure_witness :
    executeCommand (fun _ => (Except.error "bad" : Except String Unit))
      (fun _ _ => (Except.ok "done" : Except Unit String))
      "insert" (some "oops") = some (Except.ok "bad") :=
  executeCommand_parse_failure_fulfilled
    (fun _ => (Except.error "bad" : Except String Unit))
    (fun _ _ => (Except.ok "done" : Except Unit String))
    "insert" "oops" "bad" (by decide) (by decide) rfl

end MongoCollection

namespace CosmosEditorManager

/-- `obj[k] = v` followed by lookup of `k`: the new entry is found. -/
theorem find_insertEntry_self {bet : Type} (m : List (String × bet)) (k : String) (v : bet) :
    (insertEntry m k v).find? (fun kv => kv.1 == k) = some (k, v) := by
  unfold insertEntry
  rw [List.find?_cons_of_pos]
  simp

/-- `lookup` version of `find_insertEntry_self`. -/
theorem lookup_insertEntry_self {bet : Type} (m : List (String × bet)) (k : String) (v : bet) :
    lookup (insertEntry m k v) k = some v := by
  rw [lookup, find_insertEntry_self]
  rfl

/-- C2: `updateEditor` leaves `ignoreSave` false on every return path: after
a successful save, after a failing save (the `finally` on lines 83-85), and
after a failing buffer write (where the flag was never set). -/
theorem ignoreSave_clear_after_updateEditor {alp : Type} (stringify : alp → String)
    (d : alp) (bufPath : String) (env : SaveEnv) (s : MgrState alp)
    (h : s.ignoreSave = false) :
    ((updateEditor stringify d bufPath env s).2).ignoreSave = false := by
  by_cases hw : env.writeOk = true <;> by_cases hs : env.saveOk = true <;>
    simp [updateEditor, hw, hs, h]

/-- C2, witness: a failing save still ends with the flag clear. -/
theorem ignoreSave_clear_witness :
    ((updateEditor (fun n : Nat => toString n) 5 "doc.json"
        ⟨true, false⟩ ⟨[], false, none, []⟩).2).ignoreSave = false :=
  ignoreSave_clear_after_updateEditor (fun n : Nat => toString n) 5 "doc.json"
    ⟨true, false⟩ ⟨[], false, none, []⟩ rfl

/-- C4: a save-triggered upload over a buffer whose text does not parse
fails with `MalformedInput` before `editor.update` is reached: no update
event is emitted and the state — in particular the remote entity — is
exactly unchanged. -/
theorem updateToCloud_malformed {alp : Type} (parse : String → Option alp)
    (stringify : alp → String) (e : Editor alp) (docText activePath : String)
    (env : SaveEnv) (s : MgrState alp) (h : parse docText = none) :
    updateToCloud parse stringify (some e) docText activePath env s =
      (Except.error Err.malformedInput, s, []) := by
  simp [updateToCloud, h]

/-- C4, witness. -/
theorem updateToCloud_malformed_witness :
    updateToCloud (fun _ => (none : Option Nat)) (fun n => toString n)
      (some ⟨"label", "id", 0, fun x => x⟩) "not json" "p" ⟨true, true⟩
      ⟨[], false, none, []⟩ =
      (Except.error Err.malformedInput, ⟨[], false, none, []⟩, []) :=
  updateToCloud_malformed (fun _ => (none : Option Nat)) (fun n => toString n)
    ⟨"label", "id", 0, fun x => x⟩ "not json" "p" ⟨true, true⟩
    ⟨[], false, none, []⟩ rfl

/-- C5: when the save handler runs while `ignoreSave` is set, on a buffer
path bound in `fileMap`, nothing happens: no prompt, no `editor.update`
call, no state change, and the handler returns without error. -/
theorem onSave_suppressed_noop {alp : Type} (parse : String → Option alp)
    (stringify : alp → String) (resolver : String → Option (TreeNode alp))
    (uriPath docText activePath : String) (showSavePrompt : Option Bool)
    (resp : SaveResponse) (env : SaveEnv) (s : MgrState alp)
    (kv : String × Option (Editor alp))
    (hfound : s.fileMap.find? (fun kv => kv.1 == uriPath) = some kv)
    (hign : s.ignoreSave = true) :
    onDidSaveTextDocument parse stringify resolver uriPath docText activePath
      showSavePrompt resp env s = (Except.ok (), s, []) := by
  simp [onDidSaveTextDocument, hfound, hign]

/-- C5, witness. -/
theorem onSave_suppressed_noop_witness :
    onDidSaveTextDocument (fun _ => (none : Option Nat)) (fun n => toString n)
      (fun _ => none) "p" "txt" "p" none SaveResponse.upload ⟨true, true⟩
      ⟨[("p", some ⟨"l", "i", 0, fun x => x⟩)], true, none, []⟩ =
      (Except.ok (), ⟨[("p", some ⟨"l", "i", 0, fun x => x⟩)], true, none, []⟩, []) :=
  onSave_suppressed_noop (fun _ => (none : Option Nat)) (fun n => toString n)
    (fun _ => none) "p" "txt" "p" none SaveResponse.upload ⟨true, true⟩
    ⟨[("p", some ⟨"l", "i", 0, fun x => x⟩)], true, none, []⟩
    ("p", some ⟨"l", "i", 0, fun x => x⟩) rfl rfl

/-- Binding a live editor into a table whose entries are all live keeps all
entries live (the persist loop then cannot raise `TypeError`). -/
theorem insertEntry_some_no_none {alp : Type} (m : List (String × Option (Editor alp)))
    (k : String) (e : Editor alp)
    (h : m.any (fun kv => kv.2.isNone) = false) :
    (insertEntry m k (some e)).any (fun kv => kv.2.isNone) = false := by
  rw [List.any_eq_false] at h ⊢
  intro x hx
  rw [insertEntry, List.mem_cons] at hx
  rcases hx with hx | hx
  · subst hx; simp
  · exact h x (List.mem_of_mem_filter hx)

/-- Successful `showDocument` on a clean (not dirty) buffer, with a
`fileMap` holding no `undefined` values: it binds the path, persists the
binding table, and fills the buffer with the pretty-printed `getData()`
result via `updateEditor`, ending with `ignoreSave` clear. -/
theorem showDocument_ok {alp : Type} (stringify : alp → String) (e : Editor alp)
    (fileName : String) (s : MgrState alp)
    (hclean : s.fileMap.any (fun kv => kv.2.isNone) = false) :
    showDocument stringify e fileName false true ⟨true, true⟩ s =
      (Except.ok (),
       { fileMap := insertEntry s.fileMap (tmpPath fileName) (some e)
         ignoreSave := false
         persisted := some ((insertEntry s.fileMap (tmpPath fileName) (some e)).foldl
           (fun acc kv => insertEntry acc kv.1 (((kv.2.map (fun ed => ed.id))).getD ""))
           (s.persisted.getD []))
         buffers := insertEntry
           (if (s.buffers.find? (fun kv => kv.1 == tmpPath fileName)).isSome
            then s.buffers
            else insertEntry s.buffers (tmpPath fileName) "")
           (tmpPath fileName) (stringify e.data) }) := by
  have hguard := insertEntry_some_no_none s.fileMap (tmpPath fileName) e hclean
  by_cases hb : (s.buffers.find? (fun kv => kv.1 == tmpPath fileName)).isSome = true <;>
    simp [showDocument, updateEditor, hb, hguard]

/-- C3: the bind/save round trip.  Binding entity `e` to `fileName` leaves
the buffer at the bound path holding exactly the pretty-printed
serialization of `e.getData()`; saving that buffer — whose content parses
back to `d2` — uploads and leaves the buffer holding exactly the
pretty-printed serialization of `e.update(d2)`'s result.  The save prompt
is disabled and the buffer write and save succeed. -/
theorem bind_save_round_trip {alp : Type} (parse : String → Option alp)
    (stringify : alp → String) (resolver : String → Option (TreeNode alp))
    (e : Editor alp) (fileName : String) (resp : SaveResponse) (s : MgrState alp)
    (d2 : alp)
    (hclean : s.fileMap.any (fun kv => kv.2.isNone) = false)
    (hparse : parse (stringify e.data) = some d2) :
    (showDocument stringify e fileName false true ⟨true, true⟩ s).1 = Except.ok () ∧
    lookup (showDocument stringify e fileName false true ⟨true, true⟩ s).2.buffers
      (tmpPath fileName) = some (stringify e.data) ∧
    (onDidSaveTextDocument parse stringify resolver (tmpPath fileName)
        (stringify e.data) (tmpPath fileName) (some false) resp ⟨true, true⟩
        (showDocument stringify e fileName false true ⟨true, true⟩ s).2).1 =
      Except.ok () ∧
    lookup (onDidSaveTextDocument parse stringify resolver (tmpPath fileName)
        (stringify e.data) (tmpPath fileName) (some false) resp ⟨true, true⟩
        (showDocument stringify e fileName false true ⟨true, true⟩ s).2).2.1.buffers
      (tmpPath fileName) = some (stringify (e.updateFn d2)) := by
  rw [showDocument_ok stringify e fileName s hclean]
  refine ⟨rfl, lookup_insertEntry_self _ _ _, ?_, ?_⟩ <;>
    simp [onDidSaveTextDocument, updateToCloud, updateEditor,
      find_insertEntry_self, lookup_insertEntry_self, hparse]

/-- C3, witness: a boolean entity with a toggling `update`, serialized as
the literal strings "true"/"false". -/
theorem bind_save_round_trip_witness :
    (showDocument (fun b => cond b "true" "false")
        (⟨"lbl", "id0", true, fun b => !b⟩ : Editor Bool) "a.json" false true
        ⟨true, true⟩ ⟨[], false, none, []⟩).1 = Except.ok () ∧
    lookup (showDocument (fun b => cond b "true" "false")
        (⟨"lbl", "id0", true, fun b => !b⟩ : Editor Bool) "a.json" false true
        ⟨true, true⟩ ⟨[], false, none, []⟩).2.buffers
      (tmpPath "a.json") = some ((fun b => cond b "true" "false") ((⟨"lbl", "id0", true, fun b => !b⟩ : Editor Bool)).data) ∧
    (onDidSaveTextDocument
        (fun t => if t == "true" then some true else if t == "false" then some false else none)
        (fun b => cond b "true" "false") (fun _ => none) (tmpPath "a.json")
        ((fun b => cond b "true" "false") ((⟨"lbl", "id0", true, fun b => !b⟩ : Editor Bool)).data)
        (tmpPath "a.json") (some false) SaveResponse.upload ⟨true, true⟩
        (showDocument (fun b => cond b "true" "false")
          (⟨"lbl", "id0", true, fun b => !b⟩ : Editor Bool) "a.json" false true
          ⟨true, true⟩ ⟨[], false, none, []⟩).2).1 = Except.ok () ∧
    lookup (onDidSaveTextDocument
        (fun t => if t == "true" then some true else if t == "false" then some false else none)
        (fun b => cond b "true" "false") (fun _ => none) (tmpPath "a.json")
        ((fun b => cond b "true" "false") ((⟨"lbl", "id0", true, fun b => !b⟩ : Editor Bool)).data)
        (tmpPath "a.json") (some false) SaveResponse.upload ⟨true, true⟩
        (showDocument (fun b => cond b "true" "false")
          (⟨"lbl", "id0", true, fun b => !b⟩ : Editor Bool) "a.json" false true
          ⟨true, true⟩ ⟨[], false, none, []⟩).2).2.1.buffers
      (tmpPath "a.json") =
      some ((fun b => cond b "true" "false")
        (((⟨"lbl", "id0", true, fun b => !b⟩ : Editor Bool)).updateFn true)) :=
  bind_save_round_trip
    (fun t => if t == "true" then some true else if t == "false" then some false else none)
    (fun b => cond b "true" "false") (fun _ => none)
    (⟨"lbl", "id0", true, fun b => !b⟩ : Editor Bool) "a.json" SaveResponse.upload
    ⟨[], false, none, []⟩ true rfl rfl

/-- C8, counterexample to the claim as stated: recovery fails with
`EntityNotFound` on the persisted entry `("p", "id1")` whose id the
resolver cannot locate — yet afterwards the persisted table still carries
exactly that entry; the stale binding was not dropped. -/
theorem stale_binding_counterexample :
    (loadPersistedEditor (fun _ => (none : Option (TreeNode Nat))) "p"
        ⟨[], false, some [("p", "id1")], []⟩).1 = Except.error Err.entityNotFound ∧
    ((loadPersistedEditor (fun _ => (none : Option (TreeNode Nat))) "p"
        ⟨[], false, some [("p", "id1")], []⟩).2).persisted = some [("p", "id1")] :=
  ⟨rfl, rfl⟩

/-- C8 (amended): when binding recovery fails because the external resolver
cannot locate the persisted entity id, the operation throws
(`EntityNotFound`) and the state is returned unchanged: the persisted table
still carries the stale entry for that buffer path, and the in-memory table
gains no entry. -/
theorem recovery_failure_keeps_binding {alp : Type}
    (resolver : String → Option (TreeNode alp)) (uriPath : String)
    (s : MgrState alp) (tbl : List (String × String)) (kv : String × String)
    (hp : s.persisted = some tbl)
    (hfind : tbl.find? (fun kv => kv.1 == uriPath) = some kv)
    (hres : resolver kv.2 = none) :
    loadPersistedEditor resolver uriPath s = (Except.error Err.entityNotFound, s) := by
  simp [loadPersistedEditor, hp, hfind, hres]

/-- C8 (amended), witness. -/
theorem recovery_failure_keeps_binding_witness :
    loadPersistedEditor (fun _ => (none : Option (TreeNode Nat))) "q"
      ⟨[], false, some [("q", "id2")], []⟩ =
      (Except.error Err.entityNotFound, ⟨[], false, some [("q", "id2")], []⟩) :=
  recovery_failure_keeps_binding (fun _ => (none : Option (TreeNode Nat))) "q"
    ⟨[], false, some [("q", "id2")], []⟩ [("q", "id2")] ("q", "id2") rfl rfl rfl

/-- C10: on a path with no in-memory binding and no matching persisted
entry, `updateMatchingNode` does not no-op: it proceeds with the
`undefined` binding and fails with `TypeError` when the upload dereferences
it — while `onDidSaveTextDocument` in the same situation guards on the
unresolved path and returns without error.  Neither emits an
`editor.update` call. -/
theorem updateMatchingNode_unbound_fails {alp : Type} (parse : String → Option alp)
    (stringify : alp → String) (resolver : String → Option (TreeNode alp))
    (uriPath docText activePath : String) (showSavePrompt : Option Bool)
    (resp : SaveResponse) (env : SaveEnv) (s : MgrState alp)
    (hmap : s.fileMap.find? (fun kv => kv.1 == uriPath) = none)
    (hper : (s.persisted.getD []).find? (fun kv => kv.1 == uriPath) = none) :
    updateMatchingNode parse stringify resolver uriPath docText activePath env s =
      (Except.error Err.typeError, s, []) ∧
    onDidSaveTextDocument parse stringify resolver uriPath docText activePath
      showSavePrompt resp env s = (Except.ok (), s, []) := by
  cases hps : s.persisted with
  | none =>
    constructor <;> simp [updateMatchingNode, onDidSaveTextDocument,
      loadPersistedEditor, updateToCloud, hmap, hps]
  | some tbl =>
    rw [hps] at hper
    simp only [Option.getD_some] at hper
    constructor <;> simp [updateMatchingNode, onDidSaveTextDocument,
      loadPersistedEditor, updateToCloud, hmap, hps, hper]

/-- C10, witness. -/
theorem updateMatchingNode_unbound_fails_witness :
    updateMatchingNode (fun _ => (none : Option Nat)) (fun n => toString n)
      (fun _ => none) "x" "txt" "x" ⟨true, true⟩ ⟨[], false, none, []⟩ =
      (Except.error Err.typeError, ⟨[], false, none, []⟩, []) ∧
    onDidSaveTextDocument (fun _ => (none : Option Nat)) (fun n => toString n)
      (fun _ => none) "x" "txt" "x" none SaveResponse.upload ⟨true, true⟩
      ⟨[], false, none, []⟩ = (Except.ok (), ⟨[], false, none, []⟩, []) :=
  updateMatchingNode_unbound_fails (fun _ => (none : Option Nat)) (fun n => toString n)
    (fun _ => none) "x" "txt" "x" none SaveResponse.upload ⟨true, true⟩
    ⟨[], false, none, []⟩ rfl rfl

end CosmosEditorManager
